import Mathlib

/-!
Verification of the pswalker plan module (pswalker/plans.py).

The two plan generators, measure_centroid and walk_to_pixel, are embedded as
pure functions over rational numbers.  Python floats are modelled by the
rationals; the sensor is modelled as a stream of readings indexed by the
number of trigger/read cycles performed so far, and the wall clock is
modelled as a stream giving the value of time.time() - start_time at each
loop iteration.  Every message the generators yield to the run engine is
recorded in an event trace.  Per the collaborator contract, the engine halts
the plan when it receives the abort message, so the abort branch of the loop
terminates the run; the loop itself is interpreted with explicit fuel since
it has no built-in iteration bound.
-/

namespace PSWalker

/-- Messages yielded to the run engine, in the granularity the plans use:
the per-shot create/trigger/wait/read/save cycle of measure_centroid, the
motor moves issued through mv, and the checkpoint and abort messages of the
walk loop. -/
inductive Event where
  | create
  | trigger
  | wait
  | read
  | save
  | moveTo (pos : ℚ)
  | checkpoint
  | abort
deriving DecidableEq

/-- Number of shots taken by measure_centroid: the Python expression
"average or 1", which maps None and 0 to 1 and any other value to itself. -/
def nshotsOf : Option ℕ → ℕ
  | none => 1
  | some 0 => 1
  | some n => n

/-- One trigger-then-read cycle of measure_centroid: create, trigger with a
wait group, wait for the group, read, save. -/
def cycleTrace : List Event :=
  [Event.create, Event.trigger, Event.wait, Event.read, Event.save]

/-- Event trace of the for-loop of measure_centroid: one full cycle per
shot. -/
def measureTrace : ℕ → List Event
  | 0 => []
  | n + 1 => cycleTrace ++ measureTrace n

/-- Contents of the centers buffer filled by the for-loop of
measure_centroid: shot k of a call starting at stream index i stores the
reading of cycle i + k. -/
def measureCenters (readings : ℕ → ℚ) (i n : ℕ) : List ℚ :=
  (List.range n).map fun k => readings (i + k)

/-- Arithmetic mean of a list, as computed by np.mean on the buffer. -/
def npMean (xs : List ℚ) : ℚ := xs.sum / (xs.length : ℚ)

/-- Result of one call to measure_centroid: the returned mean, the trace of
yielded messages, and the sensor stream index after the call. -/
structure MeasureOut where
  value : ℚ
  trace : List Event
  shotIdx : ℕ
deriving DecidableEq

/-- Embedding of measure_centroid(detector, average): take "average or 1"
shots, each a full trigger-then-read cycle, and return the mean of the
buffer.  The metadata dictionary is observational only and is not
modelled. -/
def measureCentroid (readings : ℕ → ℚ) (average : Option ℕ) (i : ℕ) : MeasureOut :=
  let n := nshotsOf average
  { value := npMean (measureCenters readings i n)
    trace := measureTrace n
    shotIdx := i + n }

/-- Slope of scipy.stats.linregress: centered product sum over centered
square sum of the x values. -/
def linregressSlope (xs ys : List ℚ) : ℚ :=
  ((xs.zip ys).map fun p => (p.1 - npMean xs) * (p.2 - npMean ys)).sum /
    ((xs.map fun x => (x - npMean xs) ^ 2).sum)

/-- Intercept of scipy.stats.linregress: mean of y minus slope times mean
of x. -/
def linregressIntercept (xs ys : List ℚ) : ℚ :=
  npMean ys - linregressSlope xs ys * npMean xs

/-- Embedding of np.isclose(a, b, atol) with the numpy default relative
tolerance rtol = 1e-5: the test is abs (a - b) <= atol + rtol * abs b. -/
def npIsClose (a b atol : ℚ) : Bool :=
  decide (|a - b| ≤ atol + (1 / 100000) * |b|)

/-- The timeout clause of the walk loop: "timeout and elapsed > timeout".
A timeout of None or 0 is falsy, so the branch is never taken then. -/
def timeoutHit : Option ℚ → ℚ → Bool
  | none, _ => false
  | some t, e => decide (t ≠ 0) && decide (e > t)

/-- Arguments of walk_to_pixel that the loop consults. -/
structure WalkParams where
  target : ℚ
  start : ℚ
  first_step : ℚ
  tolerance : ℚ
  average : Option ℕ
  timeout : Option ℚ
deriving DecidableEq

/-- Mutable state of one walk invocation: the last averaged reading, the
next position to try, the parallel history lists angles and centers in
chronological order, the sensor stream index, and the number of completed
loop iterations (used to index the clock stream). -/
structure WalkState where
  center : ℚ
  nextPos : ℚ
  angles : List ℚ
  centers : List ℚ
  shotIdx : ℕ
  iter : ℕ
deriving DecidableEq

/-- The Init phase of walk_to_pixel: move to start, take one averaged
measurement, seed the history with that single sample, and set the next
position to start + first_step. -/
def initState (P : WalkParams) (readings : ℕ → ℚ) : WalkState :=
  let m := measureCentroid readings P.average 0
  { center := m.value
    nextPos := P.start + P.first_step
    angles := [P.start]
    centers := [m.value]
    shotIdx := m.shotIdx
    iter := 0 }

/-- Events emitted before the loop begins: the move to start followed by
the initial averaged measurement. -/
def initTrace (P : WalkParams) : List Event :=
  Event.moveTo P.start :: measureTrace (nshotsOf P.average)

/-- Body of one Stepping iteration, exactly as the source orders it:
checkpoint, move to next_pos, measure, append the new sample to both
history lists, refit the line over the whole history, and compute
next_pos = (target - intercept) / slope from the fresh fit.  The source
guards neither a zero slope nor zero position variance: the division is
performed unconditionally. -/
def stepBody (P : WalkParams) (readings : ℕ → ℚ) (s : WalkState) :
    WalkState × List Event :=
  let m := measureCentroid readings P.average s.shotIdx
  let centers2 := s.centers ++ [m.value]
  let angles2 := s.angles ++ [s.nextPos]
  ({ center := m.value
     nextPos := (P.target - linregressIntercept angles2 centers2) /
       linregressSlope angles2 centers2
     angles := angles2
     centers := centers2
     shotIdx := m.shotIdx
     iter := s.iter + 1 },
   Event.checkpoint :: Event.moveTo s.nextPos :: m.trace)

/-- Outcome of one pass through the top of the while loop. -/
inductive StepOut where
  | done (s : WalkState)
  | aborted (s : WalkState)
  | next (s : WalkState)
deriving DecidableEq

/-- One pass through the top of the while loop: first the convergence test
of the while condition, then the timeout clause, then the stepping body.
When the abort message is yielded the engine halts the plan, so the
generator is never resumed past it and the iteration performs no further
work. -/
def walkStep (P : WalkParams) (readings elapsed : ℕ → ℚ) (s : WalkState) :
    StepOut × List Event :=
  if npIsClose P.target s.center P.tolerance then (StepOut.done s, [])
  else if timeoutHit P.timeout (elapsed s.iter) then
    (StepOut.aborted s, [Event.abort])
  else (StepOut.next (stepBody P readings s).1, (stepBody P readings s).2)

/-- Terminal outcome of a fuel-bounded run of the loop. -/
inductive RunOut where
  | done (s : WalkState)
  | aborted (s : WalkState)
  | fuelOut (s : WalkState)
deriving DecidableEq

/-- Fuel-bounded interpretation of the while loop, accumulating the event
trace. -/
def walkLoop (P : WalkParams) (readings elapsed : ℕ → ℚ) :
    ℕ → WalkState → RunOut × List Event
  | 0, s => (RunOut.fuelOut s, [])
  | fuel + 1, s =>
    match walkStep P readings elapsed s with
    | (StepOut.done s2, tr) => (RunOut.done s2, tr)
    | (StepOut.aborted s2, tr) => (RunOut.aborted s2, tr)
    | (StepOut.next s2, tr) =>
      ((walkLoop P readings elapsed fuel s2).1,
        tr ++ (walkLoop P readings elapsed fuel s2).2)

/-- A whole invocation of the inner generator walk(): Init followed by the
loop. -/
def walkRun (P : WalkParams) (readings elapsed : ℕ → ℚ) (fuel : ℕ) :
    RunOut × List Event :=
  ((walkLoop P readings elapsed fuel (initState P readings)).1,
    initTrace P ++ (walkLoop P readings elapsed fuel (initState P readings)).2)

/-- Value produced by "return (yield from walk())".  The generator walk()
contains no return statement, so when the loop exits normally the
StopIteration value is None; when the abort message is yielded the engine
halts the plan and no value is produced either.  Hence walk_to_pixel never
yields a reading as its result. -/
def walkToPixel (P : WalkParams) (readings elapsed : ℕ → ℚ) (fuel : ℕ) :
    Option ℚ :=
  match (walkRun P readings elapsed fuel).1 with
  | RunOut.done _ => none
  | RunOut.aborted _ => none
  | RunOut.fuelOut _ => none

/-- Iterating only completed Stepping iterations: returns none as soon as a
pass through the loop top does not take the stepping branch. -/
def walkStepsN (P : WalkParams) (readings elapsed : ℕ → ℚ) :
    ℕ → WalkState → Option WalkState
  | 0, s => some s
  | k + 1, s =>
    match (walkStep P readings elapsed s).1 with
    | StepOut.next s2 => walkStepsN P readings elapsed k s2
    | _ => none

/-- A detector that always reads the same constant. -/
def constReadings (c : ℚ) : ℕ → ℚ := fun _ => c

/-- A clock that never advances. -/
def zeroClock : ℕ → ℚ := fun _ => 0

/-- A clock already past any small deadline. -/
def lateClock : ℕ → ℚ := fun _ => 2

/-- A detector whose k-th reading is 5 k + 2. -/
def linReadings : ℕ → ℚ := fun k => 5 * (k : ℚ) + 2

/-- Walk parameters that converge immediately: target 0, start 0, default
step and tolerance, no averaging, no timeout. -/
def Pconv : WalkParams := ⟨0, 0, 1 / 1000, 20, none, none⟩

/-- Walk parameters for a run that must step: target 52, tight tolerance. -/
def Pfar : WalkParams := ⟨52, 0, 1, 1 / 1000, none, none⟩

/-- Walk parameters leading to a zero-slope fit after the first step. -/
def Pflat : WalkParams := ⟨7, 0, 1, 1, none, none⟩

/-- Walk parameters whose first reading is outside the absolute tolerance
but inside the relative component of np.isclose. -/
def Pclose : WalkParams := ⟨10000120, 0, 1 / 1000, 20, none, none⟩

/-- Walk parameters with a timeout of 1. -/
def Ptime : WalkParams := ⟨52, 0, 1, 1 / 1000, none, some 1⟩

/-- Walk parameters with a timeout of 0, which is falsy in Python. -/
def Pzero : WalkParams := ⟨52, 0, 1, 1 / 1000, none, some 0⟩

/-- The same parameters with the timeout removed. -/
def clearTimeout (P : WalkParams) : WalkParams :=
  ⟨P.target, P.start, P.first_step, P.tolerance, P.average, none⟩

/-- A single-shot call samples exactly the current stream value. -/
theorem measureCenters_one (r : ℕ → ℚ) (i : ℕ) : measureCenters r i 1 = [r i] := by
  simp [measureCenters, show List.range 1 = [0] from rfl]

/-- Mean of a one-element buffer. -/
theorem npMean_singleton (x : ℚ) : npMean [x] = x := by
  simp [npMean]

/-- Evaluation of measure_centroid with the default average. -/
theorem measureCentroid_one (r : ℕ → ℚ) (i : ℕ) :
    measureCentroid r none i = ⟨r i, cycleTrace ++ [], i + 1⟩ := by
  simp [measureCentroid, nshotsOf, measureCenters_one, npMean_singleton, measureTrace]

/-- The expression "average or 1" never yields fewer than one shot. -/
theorem nshotsOf_pos (a : Option ℕ) : 1 ≤ nshotsOf a := by
  cases a with
  | none => exact le_refl 1
  | some n =>
    cases n with
    | zero => exact le_refl 1
    | succ m => exact Nat.succ_le_succ (Nat.zero_le m)

/-- A constant sensor fills the buffer with copies of the constant. -/
theorem measureCenters_of_const (r : ℕ → ℚ) (c : ℚ) (h : ∀ k, r k = c) (i n : ℕ) :
    measureCenters r i n = List.replicate n c := by
  unfold measureCenters
  induction n with
  | zero => simp
  | succ m ih =>
    rw [List.range_succ, List.map_append, ih]
    simp [h (i + m), List.replicate_succ']

/-- Count of trigger messages in the measurement trace. -/
theorem measureTrace_count_trigger : ∀ n, (measureTrace n).count Event.trigger = n
  | 0 => rfl
  | n + 1 => by
    rw [measureTrace, List.count_append, measureTrace_count_trigger n,
      show cycleTrace.count Event.trigger = 1 from rfl]
    omega

/-- Count of read messages in the measurement trace. -/
theorem measureTrace_count_read : ∀ n, (measureTrace n).count Event.read = n
  | 0 => rfl
  | n + 1 => by
    rw [measureTrace, List.count_append, measureTrace_count_read n,
      show cycleTrace.count Event.read = 1 from rfl]
    omega

/-- Every message of a measurement trace is one of the five cycle
messages. -/
theorem mem_cycle_of_mem_measureTrace (ev : Event) :
    ∀ n, ev ∈ measureTrace n → ev ∈ cycleTrace := by
  intro n
  induction n with
  | zero =>
    intro h
    simp [measureTrace] at h
  | succ k ih =>
    intro h
    rw [measureTrace] at h
    rcases List.mem_append.mp h with h | h
    · exact h
    · exact ih h

/-- The measurement never yields an abort message. -/
theorem abort_not_mem_measureTrace (n : ℕ) : Event.abort ∉ measureTrace n := by
  intro h
  have := mem_cycle_of_mem_measureTrace Event.abort n h
  simp [cycleTrace] at this

/-- Init yields no abort message. -/
theorem abort_not_mem_initTrace (P : WalkParams) : Event.abort ∉ initTrace P := by
  intro h
  rcases List.mem_cons.mp h with h | h
  · exact Event.noConfusion h
  · exact abort_not_mem_measureTrace _ h

/-- Init yields no checkpoint message. -/
theorem checkpoint_not_mem_initTrace (P : WalkParams) : Event.checkpoint ∉ initTrace P := by
  intro h
  rcases List.mem_cons.mp h with h | h
  · exact Event.noConfusion h
  · have := mem_cycle_of_mem_measureTrace Event.checkpoint _ h
    simp [cycleTrace] at this

/-- A Stepping body never yields an abort message. -/
theorem abort_not_mem_stepTrace (P : WalkParams) (r : ℕ → ℚ) (s : WalkState) :
    Event.abort ∉ (stepBody P r s).2 := by
  intro h
  have h2 : Event.abort ∈ Event.checkpoint :: Event.moveTo s.nextPos ::
      measureTrace (nshotsOf P.average) := h
  rcases List.mem_cons.mp h2 with h3 | h3
  · exact Event.noConfusion h3
  · rcases List.mem_cons.mp h3 with h4 | h4
    · exact Event.noConfusion h4
    · exact abort_not_mem_measureTrace _ h4

/-- When the convergence test holds the loop exits at once. -/
theorem walkStep_done_of (P : WalkParams) (r e : ℕ → ℚ) (s : WalkState)
    (h1 : npIsClose P.target s.center P.tolerance = true) :
    walkStep P r e s = (StepOut.done s, []) := by
  rw [walkStep, h1]
  simp

/-- When the test fails and the timeout clause fires, the loop yields
exactly the abort message and the engine halts the plan. -/
theorem walkStep_aborted_of (P : WalkParams) (r e : ℕ → ℚ) (s : WalkState)
    (h1 : npIsClose P.target s.center P.tolerance = false)
    (h2 : timeoutHit P.timeout (e s.iter) = true) :
    walkStep P r e s = (StepOut.aborted s, [Event.abort]) := by
  rw [walkStep, h1, h2]
  simp

/-- When neither stop condition holds, the loop runs the stepping body. -/
theorem walkStep_next_of (P : WalkParams) (r e : ℕ → ℚ) (s : WalkState)
    (h1 : npIsClose P.target s.center P.tolerance = false)
    (h2 : timeoutHit P.timeout (e s.iter) = false) :
    walkStep P r e s = (StepOut.next (stepBody P r s).1, (stepBody P r s).2) := by
  rw [walkStep, h1, h2]
  simp

/-- Loop unfolding when the convergence test holds. -/
theorem walkLoop_succ_done (P : WalkParams) (r e : ℕ → ℚ) (k : ℕ) (s : WalkState)
    (h1 : npIsClose P.target s.center P.tolerance = true) :
    walkLoop P r e (k + 1) s = (RunOut.done s, []) := by
  rw [walkLoop, walkStep_done_of P r e s h1]

/-- Loop unfolding when the timeout clause fires. -/
theorem walkLoop_succ_aborted (P : WalkParams) (r e : ℕ → ℚ) (k : ℕ) (s : WalkState)
    (h1 : npIsClose P.target s.center P.tolerance = false)
    (h2 : timeoutHit P.timeout (e s.iter) = true) :
    walkLoop P r e (k + 1) s = (RunOut.aborted s, [Event.abort]) := by
  rw [walkLoop, walkStep_aborted_of P r e s h1 h2]

/-- Loop unfolding for a Stepping iteration. -/
theorem walkLoop_succ_next (P : WalkParams) (r e : ℕ → ℚ) (k : ℕ) (s : WalkState)
    (h1 : npIsClose P.target s.center P.tolerance = false)
    (h2 : timeoutHit P.timeout (e s.iter) = false) :
    walkLoop P r e (k + 1) s =
      ((walkLoop P r e k (stepBody P r s).1).1,
        (stepBody P r s).2 ++ (walkLoop P r e k (stepBody P r s).1).2) := by
  rw [walkLoop, walkStep_next_of P r e s h1 h2]

/-- In any loop trace the abort message can only be the final message, and
nothing precedes more than one of it. -/
theorem walkLoop_abort_tail (P : WalkParams) (r e : ℕ → ℚ) :
    ∀ (fuel : ℕ) (s : WalkState), Event.abort ∈ (walkLoop P r e fuel s).2 →
      ∃ tr, (walkLoop P r e fuel s).2 = tr ++ [Event.abort] ∧ Event.abort ∉ tr := by
  intro fuel
  induction fuel with
  | zero =>
    intro s h
    simp [walkLoop] at h
  | succ k ih =>
    intro s h
    cases h1 : npIsClose P.target s.center P.tolerance with
    | true =>
      rw [walkLoop_succ_done P r e k s h1] at h
      simp at h
    | false =>
      cases h2 : timeoutHit P.timeout (e s.iter) with
      | true =>
        refine ⟨[], ?_, by simp⟩
        rw [walkLoop_succ_aborted P r e k s h1 h2]
        rfl
      | false =>
        rw [walkLoop_succ_next P r e k s h1 h2] at h ⊢
        have hmem : Event.abort ∈ (walkLoop P r e k (stepBody P r s).1).2 := by
          rcases List.mem_append.mp h with hx | hx
          · exact absurd hx (abort_not_mem_stepTrace P r s)
          · exact hx
        obtain ⟨tr, htr, hnm⟩ := ih (stepBody P r s).1 hmem
        refine ⟨(stepBody P r s).2 ++ tr, ?_, ?_⟩
        · rw [htr, List.append_assoc]
        · intro hx
          rcases List.mem_append.mp hx with hx | hx
          · exact abort_not_mem_stepTrace P r s hx
          · exact hnm hx

/-- Run-level version: abort, when present, closes the whole trace. -/
theorem walkRun_abort_tail (P : WalkParams) (r e : ℕ → ℚ) (fuel : ℕ)
    (h : Event.abort ∈ (walkRun P r e fuel).2) :
    ∃ tr, (walkRun P r e fuel).2 = tr ++ [Event.abort] ∧ Event.abort ∉ tr := by
  have hsplit : (walkRun P r e fuel).2
      = initTrace P ++ (walkLoop P r e fuel (initState P r)).2 := rfl
  rw [hsplit] at h ⊢
  have hmem : Event.abort ∈ (walkLoop P r e fuel (initState P r)).2 := by
    rcases List.mem_append.mp h with hx | hx
    · exact absurd hx (abort_not_mem_initTrace P)
    · exact hx
  obtain ⟨tr, htr, hnm⟩ := walkLoop_abort_tail P r e fuel (initState P r) hmem
  refine ⟨initTrace P ++ tr, ?_, ?_⟩
  · rw [htr, List.append_assoc]
  · intro hx
    rcases List.mem_append.mp hx with hx | hx
    · exact abort_not_mem_initTrace P hx
    · exact hnm hx

/-- A whole run emits at most one abort message. -/
theorem walkRun_abort_count (P : WalkParams) (r e : ℕ → ℚ) (fuel : ℕ) :
    (walkRun P r e fuel).2.count Event.abort ≤ 1 := by
  by_cases h : Event.abort ∈ (walkRun P r e fuel).2
  · obtain ⟨tr, htr, hnm⟩ := walkRun_abort_tail P r e fuel h
    rw [htr, List.count_append]
    simp [List.count_eq_zero.mpr hnm]
  · simp [List.count_eq_zero.mpr h]

/-- The abort message is yielded in a pass exactly when the convergence
test failed and the timeout clause fired. -/
theorem abort_mem_walkStep_iff (P : WalkParams) (r e : ℕ → ℚ) (s : WalkState) :
    Event.abort ∈ (walkStep P r e s).2 ↔
      (npIsClose P.target s.center P.tolerance = false ∧
        timeoutHit P.timeout (e s.iter) = true) := by
  constructor
  · intro h
    cases h1 : npIsClose P.target s.center P.tolerance with
    | true =>
      rw [walkStep_done_of P r e s h1] at h
      simp at h
    | false =>
      cases h2 : timeoutHit P.timeout (e s.iter) with
      | true => exact ⟨rfl, rfl⟩
      | false =>
        rw [walkStep_next_of P r e s h1 h2] at h
        exact absurd h (abort_not_mem_stepTrace P r s)
  · rintro ⟨h1, h2⟩
    rw [walkStep_aborted_of P r e s h1 h2]
    simp

/-- Unfolding of the Python truthiness in the timeout clause. -/
theorem timeoutHit_iff (tmo : Option ℚ) (x : ℚ) :
    timeoutHit tmo x = true ↔ ∃ t, tmo = some t ∧ t ≠ 0 ∧ t < x := by
  cases tmo with
  | none => simp [timeoutHit]
  | some t =>
    simp [timeoutHit]

/-- With a timeout of 0 the timeout clause behaves as with no timeout at
all, pass by pass. -/
theorem walkStep_clearTimeout (P : WalkParams) (r e : ℕ → ℚ) (h : P.timeout = some 0)
    (s : WalkState) : walkStep P r e s = walkStep (clearTimeout P) r e s := by
  cases P with
  | mk tg st fs tol av tmo =>
    have h2 : tmo = some 0 := h
    subst h2
    rfl

/-- With a timeout of 0 the whole loop behaves as with no timeout. -/
theorem walkLoop_clearTimeout (P : WalkParams) (r e : ℕ → ℚ) (h : P.timeout = some 0) :
    ∀ (fuel : ℕ) (s : WalkState),
      walkLoop P r e fuel s = walkLoop (clearTimeout P) r e fuel s := by
  intro fuel
  induction fuel with
  | zero => intro s; rfl
  | succ k ih =>
    intro s
    rw [walkLoop, walkLoop, ← walkStep_clearTimeout P r e h s]
    rcases hw : walkStep P r e s with ⟨o, tr⟩
    cases o with
    | done s2 => rfl
    | aborted s2 => rfl
    | next s2 =>
      show ((walkLoop P r e k s2).1, tr ++ (walkLoop P r e k s2).2)
        = ((walkLoop (clearTimeout P) r e k s2).1,
            tr ++ (walkLoop (clearTimeout P) r e k s2).2)
      rw [ih s2]

/-- With a timeout of 0 the whole invocation behaves as with no timeout. -/
theorem walkRun_clearTimeout (P : WalkParams) (r e : ℕ → ℚ) (h : P.timeout = some 0)
    (fuel : ℕ) : walkRun P r e fuel = walkRun (clearTimeout P) r e fuel := by
  unfold walkRun
  rw [walkLoop_clearTimeout P r e h fuel]
  rfl

/-- Each completed Stepping iteration lengthens both history lists by
exactly one. -/
theorem walkStepsN_len (P : WalkParams) (r e : ℕ → ℚ) :
    ∀ (k : ℕ) (s s2 : WalkState), walkStepsN P r e k s = some s2 →
      s2.angles.length = s.angles.length + k ∧
      s2.centers.length = s.centers.length + k := by
  intro k
  induction k with
  | zero =>
    intro s s2 h
    have hs : s = s2 := Option.some.inj h
    subst hs
    simp
  | succ m ih =>
    intro s s2 h
    rw [walkStepsN] at h
    cases h1 : npIsClose P.target s.center P.tolerance with
    | true =>
      rw [walkStep_done_of P r e s h1] at h
      exact Option.noConfusion h
    | false =>
      cases h2 : timeoutHit P.timeout (e s.iter) with
      | true =>
        rw [walkStep_aborted_of P r e s h1 h2] at h
        exact Option.noConfusion h
      | false =>
        rw [walkStep_next_of P r e s h1 h2] at h
        have hlen := ih (stepBody P r s).1 s2 h
        have ha : (stepBody P r s).1.angles.length = s.angles.length + 1 := by
          simp [stepBody]
        have hc : (stepBody P r s).1.centers.length = s.centers.length + 1 := by
          simp [stepBody]
        constructor <;> omega

/-- Claim C5: measure_centroid performs at least one cycle, returns the
arithmetic mean of the readings sampled by its cycles, and on a constant
sensor returns exactly that constant for any average count. -/
theorem measure_centroid_mean (r : ℕ → ℚ) (a : Option ℕ) (i : ℕ) (c : ℚ) :
    1 ≤ nshotsOf a ∧
    (measureCentroid r a i).value
      = (measureCenters r i (nshotsOf a)).sum / (nshotsOf a : ℚ) ∧
    ((∀ k, r k = c) → (measureCentroid r a i).value = c) := by
  refine ⟨nshotsOf_pos a, ?_, ?_⟩
  · simp [measureCentroid, npMean, measureCenters]
  · intro h
    have hp := nshotsOf_pos a
    have hn : ((nshotsOf a : ℕ) : ℚ) ≠ 0 := Nat.cast_ne_zero.mpr (by omega)
    rw [show (measureCentroid r a i).value
        = npMean (measureCenters r i (nshotsOf a)) from rfl,
      measureCenters_of_const r c h i (nshotsOf a), npMean,
      List.sum_replicate, List.length_replicate, nsmul_eq_mul]
    exact mul_div_cancel_left₀ c hn

/-- Witness for claim C5: averaging three shots of a constant sensor
reading 5 yields exactly 5. -/
theorem measure_centroid_mean_witness :
    (measureCentroid (constReadings 5) (some 3) 0).value = 5 :=
  (measure_centroid_mean (constReadings 5) (some 3) 0 5).2.2 (fun _ => rfl)

/-- Claim C6: one call emits exactly one trigger and one read message per
buffer entry, i.e. exactly nshots of each, and an unspecified average
defaults to a single cycle. -/
theorem measure_centroid_event_counts (r : ℕ → ℚ) (a : Option ℕ) (i : ℕ) :
    (measureCentroid r a i).trace = measureTrace (nshotsOf a) ∧
    (measureCentroid r a i).trace.count Event.trigger = nshotsOf a ∧
    (measureCentroid r a i).trace.count Event.read = nshotsOf a ∧
    nshotsOf none = 1 :=
  ⟨rfl, measureTrace_count_trigger (nshotsOf a),
    measureTrace_count_read (nshotsOf a), rfl⟩

/-- Claim C9: an average of 0 is falsy in the expression "average or 1",
so the call behaves exactly like average 1: one trigger-then-read cycle
whose single reading is returned unchanged. -/
theorem measure_centroid_average_zero (r : ℕ → ℚ) (i : ℕ) :
    measureCentroid r (some 0) i = measureCentroid r (some 1) i ∧
    (measureCentroid r (some 0) i).trace.count Event.trigger = 1 ∧
    (measureCentroid r (some 0) i).value = r i := by
  refine ⟨rfl, measureTrace_count_trigger 1, ?_⟩
  show npMean (measureCenters r i 1) = r i
  rw [measureCenters_one, npMean_singleton]

/-- Claim C1 (code bug): on a run that converges immediately (constant
reading 0, target 0, tolerance 20), walk_to_pixel produces None rather
than the final current reading 0, because walk() has no return
statement. -/
theorem walk_to_pixel_return_is_none :
    walkToPixel Pconv (constReadings 0) zeroClock 1 = none ∧
    (walkRun Pconv (constReadings 0) zeroClock 1).1
      = RunOut.done (initState Pconv (constReadings 0)) ∧
    (initState Pconv (constReadings 0)).center = 0 ∧
    walkToPixel Pconv (constReadings 0) zeroClock 1
      ≠ some ((initState Pconv (constReadings 0)).center) := by
  have hc : (initState Pconv (constReadings 0)).center = 0 := by
    norm_num [initState, measureCentroid_one, Pconv, constReadings]
  have h1 : npIsClose Pconv.target (initState Pconv (constReadings 0)).center
      Pconv.tolerance = true := by
    rw [hc]
    norm_num [npIsClose, Pconv]
  have hrun : (walkRun Pconv (constReadings 0) zeroClock 1).1
      = RunOut.done (initState Pconv (constReadings 0)) := by
    have hl := walkLoop_succ_done Pconv (constReadings 0) zeroClock 0
      (initState Pconv (constReadings 0)) h1
    show (walkLoop Pconv (constReadings 0) zeroClock (0 + 1)
      (initState Pconv (constReadings 0))).1 = _
    rw [hl]
  refine ⟨?_, hrun, hc, ?_⟩
  · unfold walkToPixel
    rw [hrun]
  · unfold walkToPixel
    rw [hrun]
    simp

/-- Claim C2 (code bug): after visiting positions 0 and 1 with identical
readings 5 against target 7, the fitted slope is 0, yet the loop proceeds
through its normal stepping branch and computes the unguarded division
(target - intercept) / slope; no error of any kind is raised.  Over the
rationals that division produces the junk value 0, where Python floats
produce an infinity. -/
theorem walk_zero_slope_no_error :
    linregressSlope [0, 1] [5, 5] = 0 ∧
    (walkStep Pflat (constReadings 5) zeroClock
        (initState Pflat (constReadings 5))).1
      = StepOut.next (stepBody Pflat (constReadings 5)
          (initState Pflat (constReadings 5))).1 ∧
    (stepBody Pflat (constReadings 5) (initState Pflat (constReadings 5))).1.nextPos
      = (Pflat.target - linregressIntercept [0, 1] [5, 5])
        / linregressSlope [0, 1] [5, 5] := by
  have hinit : initState Pflat (constReadings 5) = ⟨5, 1, [0], [5], 1, 0⟩ := by
    norm_num [initState, measureCentroid_one, Pflat, constReadings]
  have h1 : npIsClose Pflat.target (initState Pflat (constReadings 5)).center
      Pflat.tolerance = false := by
    rw [hinit]
    norm_num [npIsClose, Pflat, abs_of_nonneg]
  have h2 : timeoutHit Pflat.timeout
      (zeroClock (initState Pflat (constReadings 5)).iter) = false := rfl
  refine ⟨?_, ?_, ?_⟩
  · norm_num [linregressSlope, npMean]
  · rw [walkStep_next_of _ _ _ _ h1 h2]
  · rw [hinit]
    norm_num [stepBody, measureCentroid_one, constReadings, Pflat,
      linregressSlope, linregressIntercept, npMean, div_zero]

/-- Claim C3 (counterexample): with target 10000120, tolerance 20 and a
first reading of 10000000, the loop exits as converged although the
absolute difference 120 exceeds the tolerance 20, because np.isclose adds
the relative term 1e-5 times the reading. -/
theorem walk_convergence_not_purely_absolute :
    (walkStep Pclose (constReadings 10000000) zeroClock
        (initState Pclose (constReadings 10000000))).1
      = StepOut.done (initState Pclose (constReadings 10000000)) ∧
    ¬(|Pclose.target - (initState Pclose (constReadings 10000000)).center|
        ≤ Pclose.tolerance) := by
  have hc : (initState Pclose (constReadings 10000000)).center = 10000000 := by
    norm_num [initState, measureCentroid_one, Pclose, constReadings]
  have h1 : npIsClose Pclose.target
      (initState Pclose (constReadings 10000000)).center Pclose.tolerance = true := by
    rw [hc]
    norm_num [npIsClose, Pclose, abs_of_nonneg]
  constructor
  · rw [walkStep_done_of _ _ _ _ h1]
  · rw [hc]
    norm_num [Pclose, abs_of_nonneg]

/-- Claim C3 (amended): the loop exits as converged exactly when
np.isclose holds, i.e. abs (target - reading) is at most
tolerance + 1e-5 * abs reading; the test is evaluated at the top of every
pass, including right after the initial measurement, and when the first
reading already satisfies it the run stops with zero Stepping iterations:
no checkpoint is emitted and the loop state still holds that first
reading. -/
theorem walk_convergence_isclose (P : WalkParams) (r e : ℕ → ℚ) :
    (∀ s, (walkStep P r e s).1 = StepOut.done s ↔
      npIsClose P.target s.center P.tolerance = true) ∧
    Event.checkpoint ∉ initTrace P ∧
    (∀ fuel, npIsClose P.target (initState P r).center P.tolerance = true →
      walkRun P r e (fuel + 1) = (RunOut.done (initState P r), initTrace P)) := by
  refine ⟨?_, checkpoint_not_mem_initTrace P, ?_⟩
  · intro s
    constructor
    · intro h
      cases h1 : npIsClose P.target s.center P.tolerance with
      | true => rfl
      | false =>
        cases h2 : timeoutHit P.timeout (e s.iter) with
        | true =>
          rw [walkStep_aborted_of P r e s h1 h2] at h
          exact StepOut.noConfusion h
        | false =>
          rw [walkStep_next_of P r e s h1 h2] at h
          exact StepOut.noConfusion h
    · intro h1
      rw [walkStep_done_of P r e s h1]
  · intro fuel h
    have hl := walkLoop_succ_done P r e fuel (initState P r) h
    unfold walkRun
    rw [hl]
    simp

/-- Witness for claim C3: with target 0 and a constant reading of 0 the
first test holds and the run stops at once with only the Init trace. -/
theorem walk_convergence_isclose_witness :
    walkRun Pconv (constReadings 0) zeroClock (0 + 1)
      = (RunOut.done (initState Pconv (constReadings 0)), initTrace Pconv) := by
  apply (walk_convergence_isclose Pconv (constReadings 0) zeroClock).2.2 0
  norm_num [initState, measureCentroid_one, Pconv, constReadings, npIsClose]

/-- Claim C4: the abort message is yielded in a pass exactly when the
convergence test failed and the timeout clause fired; such a pass yields
the abort message alone and ends the run, so a whole invocation emits at
most one abort and nothing, in particular no move or measurement, after
it. -/
theorem walk_abort_discipline (P : WalkParams) (r e : ℕ → ℚ) :
    (∀ s, Event.abort ∈ (walkStep P r e s).2 ↔
      (npIsClose P.target s.center P.tolerance = false ∧
        timeoutHit P.timeout (e s.iter) = true)) ∧
    (∀ s, npIsClose P.target s.center P.tolerance = false →
      timeoutHit P.timeout (e s.iter) = true →
      walkStep P r e s = (StepOut.aborted s, [Event.abort])) ∧
    (∀ fuel, (walkRun P r e fuel).2.count Event.abort ≤ 1) ∧
    (∀ fuel, Event.abort ∈ (walkRun P r e fuel).2 →
      ∃ tr, (walkRun P r e fuel).2 = tr ++ [Event.abort] ∧ Event.abort ∉ tr) :=
  ⟨fun s => abort_mem_walkStep_iff P r e s,
    fun s h1 h2 => walkStep_aborted_of P r e s h1 h2,
    fun fuel => walkRun_abort_count P r e fuel,
    fun fuel h => walkRun_abort_tail P r e fuel h⟩

/-- Witness for claim C4: a run with timeout 1 and a clock already at 2
aborts on its first pass, and its whole trace ends at that single abort
message. -/
theorem walk_abort_discipline_witness :
    walkStep Ptime linReadings lateClock (initState Ptime linReadings)
      = (StepOut.aborted (initState Ptime linReadings), [Event.abort]) ∧
    (∃ tr, (walkRun Ptime linReadings lateClock 1).2 = tr ++ [Event.abort] ∧
      Event.abort ∉ tr) := by
  have h1 : npIsClose Ptime.target (initState Ptime linReadings).center
      Ptime.tolerance = false := by
    norm_num [initState, measureCentroid_one, Ptime, linReadings, npIsClose,
      abs_of_nonneg]
  have h2 : timeoutHit Ptime.timeout
      (lateClock (initState Ptime linReadings).iter) = true := by
    norm_num [timeoutHit, Ptime, lateClock]
  refine ⟨(walk_abort_discipline Ptime linReadings lateClock).2.1 _ h1 h2, ?_⟩
  apply (walk_abort_discipline Ptime linReadings lateClock).2.2.2 1
  have hl := walkLoop_succ_aborted Ptime linReadings lateClock 0
    (initState Ptime linReadings) h1 h2
  show Event.abort ∈ initTrace Ptime
    ++ (walkLoop Ptime linReadings lateClock (0 + 1) (initState Ptime linReadings)).2
  rw [hl]
  simp

/-- Helper for iterating completed Stepping iterations. -/
theorem walkStepsN_succ_next (P : WalkParams) (r e : ℕ → ℚ) (k : ℕ) (s : WalkState)
    (h1 : npIsClose P.target s.center P.tolerance = false)
    (h2 : timeoutHit P.timeout (e s.iter) = false) :
    walkStepsN P r e (k + 1) s = walkStepsN P r e k (stepBody P r s).1 := by
  rw [walkStepsN, walkStep_next_of P r e s h1 h2]

/-- Claim C7: the history is seeded with exactly the single sample
(start, first reading) before the first stop check; every completed
Stepping iteration appends exactly one sample at the end of both parallel
history lists, leaving all earlier entries untouched, so after k completed
Stepping iterations the history has length k + 1. -/
theorem walk_history_growth (P : WalkParams) (r e : ℕ → ℚ) :
    (initState P r).angles = [P.start] ∧
    (initState P r).centers = [(measureCentroid r P.average 0).value] ∧
    (∀ s s2, (walkStep P r e s).1 = StepOut.next s2 →
      s2.angles = s.angles ++ [s.nextPos] ∧
      s2.centers = s.centers ++ [(measureCentroid r P.average s.shotIdx).value]) ∧
    (∀ k s, walkStepsN P r e k (initState P r) = some s →
      s.angles.length = k + 1 ∧ s.centers.length = k + 1) := by
  refine ⟨rfl, rfl, ?_, ?_⟩
  · intro s s2 h
    cases h1 : npIsClose P.target s.center P.tolerance with
    | true =>
      rw [walkStep_done_of P r e s h1] at h
      exact StepOut.noConfusion h
    | false =>
      cases h2 : timeoutHit P.timeout (e s.iter) with
      | true =>
        rw [walkStep_aborted_of P r e s h1 h2] at h
        exact StepOut.noConfusion h
      | false =>
        rw [walkStep_next_of P r e s h1 h2] at h
        have hs : (stepBody P r s).1 = s2 := StepOut.next.inj h
        rw [← hs]
        exact ⟨rfl, rfl⟩
  · intro k s h
    have hlen := walkStepsN_len P r e k (initState P r) s h
    have ha : (initState P r).angles.length = 1 := rfl
    have hc : (initState P r).centers.length = 1 := rfl
    constructor <;> omega

/-- Witness for claim C7: one concrete Stepping iteration appends exactly
the visited position and the new reading, and two completed iterations
leave a history of length three. -/
theorem walk_history_growth_witness :
    ((stepBody Pfar linReadings (initState Pfar linReadings)).1.angles
        = (initState Pfar linReadings).angles
          ++ [(initState Pfar linReadings).nextPos] ∧
      (stepBody Pfar linReadings (initState Pfar linReadings)).1.centers
        = (initState Pfar linReadings).centers
          ++ [(measureCentroid linReadings Pfar.average
              (initState Pfar linReadings).shotIdx).value]) ∧
    ((stepBody Pfar linReadings
        (stepBody Pfar linReadings (initState Pfar linReadings)).1).1.angles.length
        = 2 + 1 ∧
      (stepBody Pfar linReadings
        (stepBody Pfar linReadings (initState Pfar linReadings)).1).1.centers.length
        = 2 + 1) := by
  have hinit : initState Pfar linReadings = ⟨2, 1, [0], [2], 1, 0⟩ := by
    norm_num [initState, measureCentroid_one, Pfar, linReadings]
  have hstep1 : (stepBody Pfar linReadings (initState Pfar linReadings)).1
      = ⟨7, 10, [0, 1], [2, 7], 2, 1⟩ := by
    rw [hinit]
    norm_num [stepBody, measureCentroid_one, linReadings, linregressSlope,
      linregressIntercept, npMean, Pfar]
  have h1a : npIsClose Pfar.target (initState Pfar linReadings).center
      Pfar.tolerance = false := by
    rw [hinit]
    norm_num [npIsClose, Pfar, abs_of_nonneg]
  have h1b : npIsClose Pfar.target
      ((stepBody Pfar linReadings (initState Pfar linReadings)).1).center
      Pfar.tolerance = false := by
    rw [hstep1]
    norm_num [npIsClose, Pfar, abs_of_nonneg]
  have hnext : (walkStep Pfar linReadings zeroClock (initState Pfar linReadings)).1
      = StepOut.next (stepBody Pfar linReadings (initState Pfar linReadings)).1 := by
    rw [walkStep_next_of _ _ _ _ h1a rfl]
  have hx : walkStepsN Pfar linReadings zeroClock 2 (initState Pfar linReadings)
      = some ((stepBody Pfar linReadings
          (stepBody Pfar linReadings (initState Pfar linReadings)).1).1) := by
    show walkStepsN Pfar linReadings zeroClock (1 + 1) (initState Pfar linReadings) = _
    rw [walkStepsN_succ_next _ _ _ 1 _ h1a rfl]
    show walkStepsN Pfar linReadings zeroClock (0 + 1)
      ((stepBody Pfar linReadings (initState Pfar linReadings)).1) = _
    rw [walkStepsN_succ_next _ _ _ 0 _ h1b rfl]
    rfl
  exact ⟨(walk_history_growth Pfar linReadings zeroClock).2.2.1 _ _ hnext,
    (walk_history_growth Pfar linReadings zeroClock).2.2.2 2 _ hx⟩

/-- Claim C8: a Stepping iteration yields, in order, exactly the
checkpoint, the move to the pending next position, and the measurement
cycles; the state it produces holds the new reading, both histories
extended at the end by the new sample, and a next position computed as
(target - intercept) / slope of a fresh ordinary least squares fit over
the entire updated history. -/
theorem walk_step_ordering (P : WalkParams) (r e : ℕ → ℚ) (s : WalkState)
    (h1 : npIsClose P.target s.center P.tolerance = false)
    (h2 : timeoutHit P.timeout (e s.iter) = false) :
    walkStep P r e s
      = (StepOut.next (stepBody P r s).1,
        Event.checkpoint :: Event.moveTo s.nextPos
          :: measureTrace (nshotsOf P.average)) ∧
    (stepBody P r s).1.center = (measureCentroid r P.average s.shotIdx).value ∧
    (stepBody P r s).1.angles = s.angles ++ [s.nextPos] ∧
    (stepBody P r s).1.centers
      = s.centers ++ [(measureCentroid r P.average s.shotIdx).value] ∧
    (stepBody P r s).1.nextPos
      = (P.target
          - linregressIntercept (stepBody P r s).1.angles (stepBody P r s).1.centers)
        / linregressSlope (stepBody P r s).1.angles (stepBody P r s).1.centers := by
  refine ⟨?_, rfl, rfl, rfl, rfl⟩
  rw [walkStep_next_of P r e s h1 h2]
  rfl

/-- Witness for claim C8: the first Stepping iteration of the concrete
linear run, with both stop conditions discharged. -/
theorem walk_step_ordering_witness :
    walkStep Pfar linReadings zeroClock (initState Pfar linReadings)
      = (StepOut.next (stepBody Pfar linReadings (initState Pfar linReadings)).1,
        Event.checkpoint :: Event.moveTo (initState Pfar linReadings).nextPos
          :: measureTrace (nshotsOf Pfar.average)) ∧
    (stepBody Pfar linReadings (initState Pfar linReadings)).1.center
      = (measureCentroid linReadings Pfar.average
          (initState Pfar linReadings).shotIdx).value ∧
    (stepBody Pfar linReadings (initState Pfar linReadings)).1.angles
      = (initState Pfar linReadings).angles
        ++ [(initState Pfar linReadings).nextPos] ∧
    (stepBody Pfar linReadings (initState Pfar linReadings)).1.centers
      = (initState Pfar linReadings).centers
        ++ [(measureCentroid linReadings Pfar.average
            (initState Pfar linReadings).shotIdx).value] ∧
    (stepBody Pfar linReadings (initState Pfar linReadings)).1.nextPos
      = (Pfar.target
          - linregressIntercept
            (stepBody Pfar linReadings (initState Pfar linReadings)).1.angles
            (stepBody Pfar linReadings (initState Pfar linReadings)).1.centers)
        / linregressSlope
            (stepBody Pfar linReadings (initState Pfar linReadings)).1.angles
            (stepBody Pfar linReadings (initState Pfar linReadings)).1.centers := by
  have h1 : npIsClose Pfar.target (initState Pfar linReadings).center
      Pfar.tolerance = false := by
    norm_num [initState, measureCentroid_one, Pfar, linReadings, npIsClose,
      abs_of_nonneg]
  exact walk_step_ordering Pfar linReadings zeroClock (initState Pfar linReadings) h1 rfl

/-- Claim C10: the abort message is yielded exactly when the supplied
timeout is truthy, i.e. some nonzero t, and the elapsed time at the check
exceeds t with the convergence test having failed; a timeout of 0 makes
the whole invocation behave exactly as if no timeout had been supplied. -/
theorem walk_timeout_truthiness (r e : ℕ → ℚ) :
    (∀ (P : WalkParams) (s : WalkState), Event.abort ∈ (walkStep P r e s).2 ↔
      (npIsClose P.target s.center P.tolerance = false ∧
        ∃ t, P.timeout = some t ∧ t ≠ 0 ∧ t < e s.iter)) ∧
    (∀ (P : WalkParams) (fuel : ℕ), P.timeout = some 0 →
      walkRun P r e fuel = walkRun (clearTimeout P) r e fuel) := by
  constructor
  · intro P s
    exact (abort_mem_walkStep_iff P r e s).trans
      (and_congr_right fun _ => timeoutHit_iff P.timeout (e s.iter))
  · intro P fuel h
    exact walkRun_clearTimeout P r e h fuel

/-- Witness for claim C10: the run with timeout 0 equals the run with the
timeout removed. -/
theorem walk_timeout_truthiness_witness :
    walkRun Pzero linReadings lateClock 1
      = walkRun (clearTimeout Pzero) linReadings lateClock 1 :=
  (walk_timeout_truthiness linReadings lateClock).2 Pzero 1 rfl

end PSWalker

